import Mathlib

/-
Verification of the macOS event generator of accesskit
(src/platforms/macos/src/event.rs).

The generator reacts to tree-change callbacks by appending `QueuedEvent`
descriptors to an ordered queue; a separate delivery step (`raise`) turns
descriptors into platform notifications using a shared context.

Shallow embedding: a node view is a record of the externally queried
attributes (`name`, `live`, `title`, `value`, `supports_text_ranges`,
`raw_text_selection`) together with the outcome of the external inclusion
filter, which in the source is the pure predicate `filter` / `filter_detached`
over the node.  Both `Node` and `DetachedNode` expose the same accessors to
this module, so a single record models both.  The queue is a `List` of
descriptors; each callback is a function from the queue to the queue.  The
Rust `node.name().unwrap()` inside `live_region_announcement` can panic, so
that constructor and the callbacks that use it return `Option`, with `none`
standing for the panic.
-/

namespace AccessKitMac

/-- Live-region setting of a node, mirroring `accesskit::Live`. -/
inductive Live where
  | off
  | polite
  | assertive
deriving DecidableEq

/-- Result of the inclusion filter, mirroring `accesskit_consumer::FilterResult`. -/
inductive FilterResult where
  | Include
  | ExcludeNode
  | ExcludeSubtree
deriving DecidableEq

/-- Read-only view of a node: the attributes the event generator queries,
plus the verdict of the external inclusion filter on this node.  Models both
`Node` and `DetachedNode` (the source treats them uniformly through
`NodeWrapper` and the `filter` / `filter_detached` predicates). -/
structure NodeView where
  id : Nat
  name : Option String
  live : Live
  title : Option String
  value : Option String
  supportsTextRanges : Bool
  rawTextSelection : Option (Nat × Nat)
  filterResult : FilterResult
deriving DecidableEq

/-- The inclusion filter on a live node (`crate::node::filter`), an external
pure predicate whose outcome is carried by the view. -/
def filter (node : NodeView) : FilterResult :=
  node.filterResult

/-- The inclusion filter on a detached node (`crate::node::filter_detached`). -/
def filter_detached (node : NodeView) : FilterResult :=
  node.filterResult

/-- The tree state passed to `node_removed`; the generator never inspects it,
but we give it content so independence from it is a real statement. -/
structure TreeState where
  focusId : Option Nat
deriving DecidableEq

/-- Platform notification names: the `NSAccessibility...Notification` static
strings used by the source. -/
inductive NotifName where
  | titleChanged
  | valueChanged
  | selectedTextChanged
  | focusedUIElementChanged
  | uiElementDestroyed
deriving DecidableEq

/-- Announcement priority: the `NSAccessibilityPriorityHigh` / `Medium`
constants. -/
inductive Priority where
  | high
  | medium
deriving DecidableEq

/-- Event descriptor, mirroring `QueuedEvent` in the source. -/
inductive QueuedEvent where
  | Generic (node_id : Nat) (notification : NotifName)
  | NodeDestroyed (node_id : Nat)
  | Announcement (text : String) (priority : Priority)
deriving DecidableEq

/-- Embedding of `QueuedEvent::live_region_announcement`.  The source runs
`node.name().unwrap()`, which panics when the name is absent; the panic is
modelled as `none`. -/
def live_region_announcement (node : NodeView) : Option QueuedEvent :=
  node.name.map fun text =>
    QueuedEvent.Announcement text
      (if node.live = Live.assertive then Priority.high else Priority.medium)

/-- Embedding of `EventGenerator::node_added` acting on the event queue.
Returns `none` when the source would panic. -/
def node_added (events : List QueuedEvent) (node : NodeView) :
    Option (List QueuedEvent) :=
  if filter node ≠ FilterResult.Include then
    some events
  else if node.name.isSome ∧ node.live ≠ Live.off then
    (live_region_announcement node).map fun e => events ++ [e]
  else
    some events

/-- Embedding of `EventGenerator::node_updated` acting on the event queue.
The sequential `push` calls of the source become successive appends.
Returns `none` when the source would panic. -/
def node_updated (events : List QueuedEvent) (old_node new_node : NodeView) :
    Option (List QueuedEvent) :=
  if filter new_node ≠ FilterResult.Include then
    some events
  else
    let node_id := new_node.id
    let e1 :=
      if old_node.title ≠ new_node.title then
        events ++ [QueuedEvent.Generic node_id NotifName.titleChanged]
      else events
    let e2 :=
      if old_node.value ≠ new_node.value then
        e1 ++ [QueuedEvent.Generic node_id NotifName.valueChanged]
      else e1
    let e3 :=
      if old_node.supportsTextRanges ∧ new_node.supportsTextRanges ∧
          old_node.rawTextSelection ≠ new_node.rawTextSelection then
        e2 ++ [QueuedEvent.Generic node_id NotifName.selectedTextChanged]
      else e2
    if new_node.name.isSome ∧ new_node.live ≠ Live.off ∧
        (new_node.name ≠ old_node.name ∨ new_node.live ≠ old_node.live ∨
          filter_detached old_node ≠ FilterResult.Include) then
      (live_region_announcement new_node).map fun e => e3 ++ [e]
    else
      some e3

/-- Embedding of `EventGenerator::focus_moved` acting on the event queue. -/
def focus_moved (events : List QueuedEvent) (_old_node : Option NodeView)
    (new_node : Option NodeView) : List QueuedEvent :=
  match new_node with
  | some new_node =>
    if filter new_node ≠ FilterResult.Include then
      events
    else
      events ++ [QueuedEvent.Generic new_node.id NotifName.focusedUIElementChanged]
  | none => events

/-- Embedding of `EventGenerator::node_removed` acting on the event queue. -/
def node_removed (events : List QueuedEvent) (node : NodeView)
    (_current_state : TreeState) : List QueuedEvent :=
  events ++ [QueuedEvent.NodeDestroyed node.id]

/-- Helper characterisation (not from the source): the list `node_added`
appends when it does not panic. -/
def added_app (node : NodeView) : List QueuedEvent :=
  if filter node ≠ FilterResult.Include then []
  else if node.name.isSome ∧ node.live ≠ Live.off then
    (live_region_announcement node).toList
  else []

/-- Helper characterisation (not from the source): the list `node_updated`
appends when it does not panic. -/
def updated_app (old_node new_node : NodeView) : List QueuedEvent :=
  if filter new_node ≠ FilterResult.Include then []
  else
    (if old_node.title ≠ new_node.title then
      [QueuedEvent.Generic new_node.id NotifName.titleChanged]
    else []) ++
    (if old_node.value ≠ new_node.value then
      [QueuedEvent.Generic new_node.id NotifName.valueChanged]
    else []) ++
    (if old_node.supportsTextRanges ∧ new_node.supportsTextRanges ∧
        old_node.rawTextSelection ≠ new_node.rawTextSelection then
      [QueuedEvent.Generic new_node.id NotifName.selectedTextChanged]
    else []) ++
    (if new_node.name.isSome ∧ new_node.live ≠ Live.off ∧
        (new_node.name ≠ old_node.name ∨ new_node.live ≠ old_node.live ∨
          filter_detached old_node ≠ FilterResult.Include) then
      (live_region_announcement new_node).toList
    else [])

/-- A view with its window, as far as delivery inspects it: `view.window()`
may be absent. -/
structure ViewInfo where
  window : Option Nat
deriving DecidableEq

/-- The shared context.  The platform-node cache is an association list from
node id to platform-node handle; `nextHandle` supplies fresh handles;
`view` is the weakly held view (`context.view.load()` may be absent). -/
structure Context where
  platformNodes : List (Nat × Nat)
  nextHandle : Nat
  view : Option ViewInfo
deriving DecidableEq

/-- Lookup in the platform-node cache. -/
def lookup_handle : List (Nat × Nat) → Nat → Option Nat
  | [], _ => none
  | (k, v) :: rest, node_id =>
    if k = node_id then some v else lookup_handle rest node_id

/-- Remove the first entry for a key from the cache, returning the removed
handle (if any) and the remaining cache. -/
def remove_entry : List (Nat × Nat) → Nat → Option Nat × List (Nat × Nat)
  | [], _ => (none, [])
  | (k, v) :: rest, node_id =>
    if k = node_id then (some v, rest)
    else
      let r := remove_entry rest node_id
      (r.1, (k, v) :: r.2)

/-- Modelled from the spec: `Context::get_or_create_platform_node` is not
under src/; the spec describes it as `resolve_or_create(id) -> handle`, a
memoized lookup that creates and caches a handle if absent. -/
def get_or_create_platform_node (context : Context) (node_id : Nat) :
    Nat × Context :=
  match lookup_handle context.platformNodes node_id with
  | some handle => (handle, context)
  | none =>
    (context.nextHandle,
      { context with
          platformNodes := context.platformNodes ++ [(node_id, context.nextHandle)]
          nextHandle := context.nextHandle + 1 })

/-- Modelled from the spec: `Context::remove_platform_node` is not under
src/; the spec describes it as `remove(id) -> Option<handle>`, removing and
returning the cached handle for the id if one exists. -/
def remove_platform_node (context : Context) (node_id : Nat) :
    Option Nat × Context :=
  let r := remove_entry context.platformNodes node_id
  (r.1, { context with platformNodes := r.2 })

/-- One platform call made during delivery: either
`NSAccessibilityPostNotification(element, name)` or the announcement
variant `NSAccessibilityPostNotificationWithUserInfo` on a window. -/
inductive PlatformNotification where
  | post (handle : Nat) (notification : NotifName)
  | postWithInfo (window : Nat) (text : String) (priority : Priority)
deriving DecidableEq

/-- Embedding of `QueuedEvent::raise`: delivering one descriptor yields the
updated context and the platform calls it dispatched, in order. -/
def QueuedEvent.raise : QueuedEvent → Context → Context × List PlatformNotification
  | QueuedEvent.Generic node_id notification, context =>
    let r := get_or_create_platform_node context node_id
    (r.2, [PlatformNotification.post r.1 notification])
  | QueuedEvent.NodeDestroyed node_id, context =>
    let r := remove_platform_node context node_id
    match r.1 with
    | some platform_node =>
      (r.2, [PlatformNotification.post platform_node NotifName.uiElementDestroyed])
    | none => (r.2, [])
  | QueuedEvent.Announcement text priority, context =>
    match context.view with
    | none => (context, [])
    | some view =>
      match view.window with
      | none => (context, [])
      | some window =>
        (context, [PlatformNotification.postWithInfo window text priority])

/-- Deliver a whole queue in order, threading the context and concatenating
the dispatched platform calls; the loop body of `QueuedEvents::raise`. -/
def raise_all : List QueuedEvent → Context → Context × List PlatformNotification
  | [], context => (context, [])
  | event :: rest, context =>
    let r := QueuedEvent.raise event context
    let s := raise_all rest r.1
    (s.1, r.2 ++ s.2)

/-- The generator: shared context plus the accumulated queue. -/
structure EventGenerator where
  context : Context
  events : List QueuedEvent

/-- The delivery-ready value produced by `EventGenerator::into_result`. -/
structure QueuedEvents where
  context : Context
  events : List QueuedEvent

/-- Embedding of `EventGenerator::into_result`. -/
def into_result (g : EventGenerator) : QueuedEvents :=
  { context := g.context, events := g.events }

/-- Embedding of `QueuedEvents::raise`. -/
def QueuedEvents.raise (q : QueuedEvents) : Context × List PlatformNotification :=
  raise_all q.events q.context

/-- One tree-change callback, as invoked by the external diff engine on the
`TreeChangeHandler`. -/
inductive TreeChange where
  | added (node : NodeView)
  | updated (old_node new_node : NodeView)
  | focusChange (old_node new_node : Option NodeView)
  | removed (node : NodeView) (state : TreeState)

/-- Dispatch one callback to the matching handler. -/
def handle_change (events : List QueuedEvent) :
    TreeChange → Option (List QueuedEvent)
  | TreeChange.added node => node_added events node
  | TreeChange.updated old_node new_node => node_updated events old_node new_node
  | TreeChange.focusChange old_node new_node =>
    some (focus_moved events old_node new_node)
  | TreeChange.removed node state => some (node_removed events node state)

/-- Run a sequence of callbacks against the queue, as the diff engine does
during one tree walk. -/
def run_changes (events : List QueuedEvent) :
    List TreeChange → Option (List QueuedEvent)
  | [] => some events
  | c :: cs => (handle_change events c).bind fun e => run_changes e cs

lemma append_ite {α : Type} (p : Prop) [Decidable p] (a l : List α) :
    (if p then a ++ l else a) = a ++ (if p then l else []) := by
  split <;> simp

lemma ite_append {α : Type} (p : Prop) [Decidable p] (a l : List α) :
    (if p then a else a ++ l) = a ++ (if p then [] else l) := by
  split <;> simp

lemma node_added_eq (events : List QueuedEvent) (node : NodeView) :
    node_added events node = some (events ++ added_app node) := by
  by_cases hf : filter node ≠ FilterResult.Include
  · simp [node_added, added_app, hf]
  · by_cases hn : node.name.isSome ∧ node.live ≠ Live.off
    · obtain ⟨nm, hnm⟩ := Option.isSome_iff_exists.mp hn.1
      simp [node_added, added_app, hf, hn, live_region_announcement, hnm]
    · simp [node_added, added_app, hf, hn]

lemma node_updated_eq (events : List QueuedEvent) (old_node new_node : NodeView) :
    node_updated events old_node new_node =
      some (events ++ updated_app old_node new_node) := by
  by_cases hf : filter new_node ≠ FilterResult.Include
  · simp [node_updated, updated_app, hf]
  · by_cases h4 : new_node.name.isSome ∧ new_node.live ≠ Live.off ∧
        (new_node.name ≠ old_node.name ∨ new_node.live ≠ old_node.live ∨
          filter_detached old_node ≠ FilterResult.Include)
    · obtain ⟨hs, hlive, hdisj⟩ := h4
      obtain ⟨nm, hnm⟩ := Option.isSome_iff_exists.mp hs
      rw [hnm] at hdisj
      by_cases h2 : old_node.value = new_node.value <;>
      by_cases h3 : old_node.supportsTextRanges ∧ new_node.supportsTextRanges ∧
          old_node.rawTextSelection ≠ new_node.rawTextSelection <;>
        simp [node_updated, updated_app, hf, hs, hlive, hdisj, hnm, h2, h3,
          live_region_announcement, append_ite, ite_append, List.append_assoc]
    · by_cases h2 : old_node.value = new_node.value <;>
      by_cases h3 : old_node.supportsTextRanges ∧ new_node.supportsTextRanges ∧
          old_node.rawTextSelection ≠ new_node.rawTextSelection <;>
        simp [node_updated, updated_app, hf, h4, h2, h3, append_ite, ite_append,
          List.append_assoc]

lemma mem_ite_nil {α : Type} (p : Prop) [Decidable p] (x : α) (l : List α) :
    x ∈ (if p then l else []) ↔ p ∧ x ∈ l := by
  split
  case isTrue h => simp [h]
  case isFalse h => simp [h]

lemma remove_entry_fst (l : List (Nat × Nat)) (node_id : Nat) :
    (remove_entry l node_id).1 = lookup_handle l node_id := by
  induction l with
  | nil => rfl
  | cons kv rest ih =>
    obtain ⟨k, v⟩ := kv
    by_cases h : k = node_id <;> simp [remove_entry, lookup_handle, h, ih]

lemma remove_entry_of_lookup_none (l : List (Nat × Nat)) (node_id : Nat)
    (h : lookup_handle l node_id = none) : (remove_entry l node_id).2 = l := by
  induction l with
  | nil => rfl
  | cons kv rest ih =>
    obtain ⟨k, v⟩ := kv
    by_cases hk : k = node_id
    · simp [lookup_handle, hk] at h
    · simp [lookup_handle, hk] at h
      simp [remove_entry, hk, ih h]

lemma handle_change_extends (events : List QueuedEvent) (c : TreeChange)
    (result : List QueuedEvent) (h : handle_change events c = some result) :
    ∃ app, result = events ++ app := by
  cases c with
  | added node =>
    rw [handle_change, node_added_eq] at h
    exact ⟨added_app node, (Option.some_inj.mp h).symm⟩
  | updated old_node new_node =>
    rw [handle_change, node_updated_eq] at h
    exact ⟨updated_app old_node new_node, (Option.some_inj.mp h).symm⟩
  | focusChange old_node new_node =>
    rw [handle_change] at h
    replace h := (Option.some_inj.mp h).symm
    cases new_node with
    | none => exact ⟨[], by simp [focus_moved] at h; simp [h]⟩
    | some n =>
      by_cases hf : filter n ≠ FilterResult.Include
      · exact ⟨[], by simp [focus_moved, hf] at h; simp [h]⟩
      · exact ⟨[QueuedEvent.Generic n.id NotifName.focusedUIElementChanged],
          by simp [focus_moved, hf] at h; simp [h]⟩
  | removed node state =>
    rw [handle_change] at h
    exact ⟨[QueuedEvent.NodeDestroyed node.id], (Option.some_inj.mp h).symm⟩

lemma run_changes_extends (cs : List TreeChange) :
    ∀ events result, run_changes events cs = some result →
      ∃ app, result = events ++ app := by
  induction cs with
  | nil =>
    intro events result h
    rw [run_changes] at h
    exact ⟨[], by simp [(Option.some_inj.mp h).symm]⟩
  | cons c rest ih =>
    intro events result h
    rw [run_changes] at h
    cases hc : handle_change events c with
    | none => rw [hc] at h; simp at h
    | some mid =>
      rw [hc] at h
      simp only [Option.some_bind] at h
      obtain ⟨app1, h1⟩ := handle_change_extends events c mid hc
      obtain ⟨app2, h2⟩ := ih mid result h
      exact ⟨app1 ++ app2, by rw [h2, h1, List.append_assoc]⟩

/-- C1: every node-removed callback appends exactly one `NodeDestroyed`
descriptor carrying the id of the removed node, unconditionally: the equation
holds for every node view (hence every filter verdict) and every tree
state. -/
theorem c1_node_removed_unconditional (events : List QueuedEvent)
    (node : NodeView) (state : TreeState) :
    node_removed events node state =
      events ++ [QueuedEvent.NodeDestroyed node.id] :=
  rfl

/-- C2: on a node-added callback for an included node, an announcement is
appended iff the node has a name and its live setting is not off; its text
is the name of the node, its priority is high exactly for assertive, and it is
the only descriptor appended. -/
theorem c2_node_added_announcement (events : List QueuedEvent) (node : NodeView)
    (hinc : filter node = FilterResult.Include) :
    (∀ nm, node.name = some nm → node.live ≠ Live.off →
      node_added events node = some (events ++
        [QueuedEvent.Announcement nm
          (if node.live = Live.assertive then Priority.high else Priority.medium)])) ∧
    ((node.name = none ∨ node.live = Live.off) →
      node_added events node = some events) := by
  constructor
  · intro nm hnm hlive
    simp [node_added, hinc, hnm, hlive, live_region_announcement]
  · rintro (hname | hlive)
    · simp [node_added, hinc, hname]
    · simp [node_added, hinc, hlive]

theorem c2_witness :
    node_added []
        ⟨2, some "hello", Live.assertive, none, none, false, none,
          FilterResult.Include⟩ =
      some [QueuedEvent.Announcement "hello" Priority.high] :=
  (c2_node_added_announcement []
    ⟨2, some "hello", Live.assertive, none, none, false, none,
      FilterResult.Include⟩ rfl).1 "hello" rfl (by decide)

/-- C5: when the inclusion filter excludes the new node, both the node-added
and the node-updated callbacks append nothing: the queue is unchanged. -/
theorem c5_excluded_no_events (events : List QueuedEvent) (node : NodeView)
    (hexc : filter node ≠ FilterResult.Include) :
    node_added events node = some events ∧
    ∀ old_node, node_updated events old_node node = some events := by
  constructor
  · simp [node_added, hexc]
  · intro old_node
    simp [node_updated, hexc]

theorem c5_witness :
    node_added []
        ⟨3, some "n", Live.polite, none, none, false, none,
          FilterResult.ExcludeNode⟩ =
      some [] :=
  (c5_excluded_no_events []
    ⟨3, some "n", Live.polite, none, none, false, none,
      FilterResult.ExcludeNode⟩ (by decide)).1

/-- C6: a focus-moved callback appends exactly one focus-changed descriptor
for the new node when it is present and included, and nothing otherwise;
the old node argument is irrelevant. -/
theorem c6_focus_moved (events : List QueuedEvent) (old_node : Option NodeView) :
    focus_moved events old_node none = events ∧
    ∀ new_node, focus_moved events old_node (some new_node) =
      if filter new_node = FilterResult.Include then
        events ++ [QueuedEvent.Generic new_node.id NotifName.focusedUIElementChanged]
      else events := by
  constructor
  · rfl
  · intro new_node
    by_cases h : filter new_node = FilterResult.Include <;> simp [focus_moved, h]

/-- C7: on a node-updated callback for an included new node, a
selection-changed descriptor is appended iff both views support text ranges
and their raw text-selections differ. -/
theorem c7_selection_changed (events : List QueuedEvent)
    (old_node new_node : NodeView)
    (hinc : filter new_node = FilterResult.Include) :
    ∃ app, node_updated events old_node new_node = some (events ++ app) ∧
      (QueuedEvent.Generic new_node.id NotifName.selectedTextChanged ∈ app ↔
        (old_node.supportsTextRanges ∧ new_node.supportsTextRanges ∧
          old_node.rawTextSelection ≠ new_node.rawTextSelection)) := by
  refine ⟨updated_app old_node new_node,
    node_updated_eq events old_node new_node, ?_⟩
  cases hn : new_node.name <;>
    simp [updated_app, hinc, live_region_announcement, hn, mem_ite_nil]

theorem c7_witness :
    ∃ app,
      node_updated []
          ⟨4, none, Live.off, none, none, true, some (0, 1), FilterResult.Include⟩
          ⟨4, none, Live.off, none, none, true, some (2, 3), FilterResult.Include⟩ =
        some ([] ++ app) ∧
      (QueuedEvent.Generic 4 NotifName.selectedTextChanged ∈ app ↔
        ((true : Bool) ∧ (true : Bool) ∧
          (some (0, 1) : Option (Nat × Nat)) ≠ some (2, 3))) :=
  c7_selection_changed []
    ⟨4, none, Live.off, none, none, true, some (0, 1), FilterResult.Include⟩
    ⟨4, none, Live.off, none, none, true, some (2, 3), FilterResult.Include⟩ rfl

/-- C3 (counterexample): with the old view excluded by the filter and the
new view included, a value-only change on a polite live node with an
unchanged name appends a live-region announcement in addition to the
value-changed descriptor, so the callback does not produce exactly one
descriptor. -/
theorem c3_counterexample :
    node_updated []
        ⟨1, some "x", Live.polite, some "t", some "a", false, none,
          FilterResult.ExcludeNode⟩
        ⟨1, some "x", Live.polite, some "t", some "b", false, none,
          FilterResult.Include⟩ =
      some [QueuedEvent.Generic 1 NotifName.valueChanged,
        QueuedEvent.Announcement "x" Priority.medium] ∧
    node_updated []
        ⟨1, some "x", Live.polite, some "t", some "a", false, none,
          FilterResult.ExcludeNode⟩
        ⟨1, some "x", Live.polite, some "t", some "b", false, none,
          FilterResult.Include⟩ ≠
      some [QueuedEvent.Generic 1 NotifName.valueChanged] := by
  constructor
  · decide
  · decide

/-- C3 (amended): on a node-updated callback where the new view is included
by the filter, the old view would also have been included, and only the
value attribute differs (title, raw text-selection, name and live setting
unchanged by value equality), exactly one value-changed descriptor is
appended and nothing else. -/
theorem c3_value_only_changed (events : List QueuedEvent)
    (old_node new_node : NodeView)
    (hinc : filter new_node = FilterResult.Include)
    (hold : filter_detached old_node = FilterResult.Include)
    (htitle : old_node.title = new_node.title)
    (hsel : old_node.rawTextSelection = new_node.rawTextSelection)
    (hname : old_node.name = new_node.name)
    (hlive : old_node.live = new_node.live)
    (hval : old_node.value ≠ new_node.value) :
    node_updated events old_node new_node =
      some (events ++ [QueuedEvent.Generic new_node.id NotifName.valueChanged]) := by
  rw [node_updated_eq]
  simp [updated_app, hinc, hold, htitle, hsel, hname, hlive, hval]

theorem c3_witness :
    node_updated []
        ⟨1, none, Live.off, none, some "a", false, none, FilterResult.Include⟩
        ⟨1, none, Live.off, none, some "b", false, none, FilterResult.Include⟩ =
      some [QueuedEvent.Generic 1 NotifName.valueChanged] :=
  c3_value_only_changed []
    ⟨1, none, Live.off, none, some "a", false, none, FilterResult.Include⟩
    ⟨1, none, Live.off, none, some "b", false, none, FilterResult.Include⟩
    rfl rfl rfl rfl rfl rfl (by decide)

/-- C4: on a node-updated callback where the old view was excluded, the new
view is included, the new name is present and the new live setting is
polite, a live-region announcement with the new name and medium priority is
appended (no equality between old and new name or live setting is
required). -/
theorem c4_excluded_to_included_announces (events : List QueuedEvent)
    (old_node new_node : NodeView) (nm : String)
    (hold : filter_detached old_node ≠ FilterResult.Include)
    (hinc : filter new_node = FilterResult.Include)
    (hname : new_node.name = some nm)
    (hlive : new_node.live = Live.polite) :
    ∃ app, node_updated events old_node new_node =
      some (events ++ app ++ [QueuedEvent.Announcement nm Priority.medium]) := by
  rw [node_updated_eq]
  refine ⟨(if old_node.title ≠ new_node.title then
      [QueuedEvent.Generic new_node.id NotifName.titleChanged] else []) ++
    (if old_node.value ≠ new_node.value then
      [QueuedEvent.Generic new_node.id NotifName.valueChanged] else []) ++
    (if old_node.supportsTextRanges ∧ new_node.supportsTextRanges ∧
        old_node.rawTextSelection ≠ new_node.rawTextSelection then
      [QueuedEvent.Generic new_node.id NotifName.selectedTextChanged] else []), ?_⟩
  simp [updated_app, hinc, hold, hname, hlive, live_region_announcement,
    List.append_assoc]

theorem c4_witness :
    ∃ app,
      node_updated []
          ⟨5, some "msg", Live.polite, none, none, false, none,
            FilterResult.ExcludeNode⟩
          ⟨5, some "msg", Live.polite, none, none, false, none,
            FilterResult.Include⟩ =
        some ([] ++ app ++ [QueuedEvent.Announcement "msg" Priority.medium]) :=
  c4_excluded_to_included_announces []
    ⟨5, some "msg", Live.polite, none, none, false, none,
      FilterResult.ExcludeNode⟩
    ⟨5, some "msg", Live.polite, none, none, false, none,
      FilterResult.Include⟩
    "msg" (by decide) rfl rfl rfl

/-- C8: the reaction entry points only append to the queue: over any
sequence of callbacks the queue before is a prefix of the queue after
(so descriptors appear in invocation order), and `into_result` hands the
queue over unchanged. -/
theorem c8_append_only :
    (∀ events cs result, run_changes events cs = some result →
      ∃ app, result = events ++ app) ∧
    (∀ g : EventGenerator,
      (into_result g).events = g.events ∧ (into_result g).context = g.context) :=
  ⟨fun events cs result h => run_changes_extends cs events result h,
   fun _ => ⟨rfl, rfl⟩⟩

theorem c8_witness :
    ∃ app, [QueuedEvent.NodeDestroyed 9] = [] ++ app :=
  c8_append_only.1 []
    [TreeChange.removed
      ⟨9, none, Live.off, none, none, false, none, FilterResult.Include⟩
      ⟨none⟩]
    [QueuedEvent.NodeDestroyed 9] rfl

/-- C9: delivering a `NodeDestroyed` descriptor whose id has no registered
handle dispatches nothing, leaves the context unchanged, and the rest of
the pass proceeds exactly as if the descriptor were absent; when a handle
is registered, it is removed from the context and exactly one destroyed
notification is dispatched for it. -/
theorem c9_node_destroyed_delivery (context : Context) (node_id : Nat)
    (rest : List QueuedEvent) :
    (lookup_handle context.platformNodes node_id = none →
      QueuedEvent.raise (QueuedEvent.NodeDestroyed node_id) context =
        (context, []) ∧
      raise_all (QueuedEvent.NodeDestroyed node_id :: rest) context =
        raise_all rest context) ∧
    (∀ h, lookup_handle context.platformNodes node_id = some h →
      QueuedEvent.raise (QueuedEvent.NodeDestroyed node_id) context =
        ({ context with
            platformNodes := (remove_entry context.platformNodes node_id).2 },
          [PlatformNotification.post h NotifName.uiElementDestroyed])) := by
  constructor
  · intro hnone
    have hfst : (remove_entry context.platformNodes node_id).1 = none := by
      rw [remove_entry_fst]
      exact hnone
    have hsnd := remove_entry_of_lookup_none context.platformNodes node_id hnone
    have hraise : QueuedEvent.raise (QueuedEvent.NodeDestroyed node_id) context =
        (context, []) := by
      simp [QueuedEvent.raise, remove_platform_node, hfst, hsnd]
    exact ⟨hraise, by simp [raise_all, hraise]⟩
  · intro h hsome
    have hfst : (remove_entry context.platformNodes node_id).1 = some h := by
      rw [remove_entry_fst]
      exact hsome
    simp [QueuedEvent.raise, remove_platform_node, hfst]

theorem c9_witness :
    QueuedEvent.raise (QueuedEvent.NodeDestroyed 0) ⟨[], 0, none⟩ =
      (⟨[], 0, none⟩, []) ∧
    QueuedEvent.raise (QueuedEvent.NodeDestroyed 7) ⟨[(7, 3)], 4, none⟩ =
      (⟨[], 4, none⟩, [PlatformNotification.post 3 NotifName.uiElementDestroyed]) :=
  ⟨((c9_node_destroyed_delivery ⟨[], 0, none⟩ 0 []).1 rfl).1,
   (c9_node_destroyed_delivery ⟨[(7, 3)], 4, none⟩ 7 []).2 3 rfl⟩

/-- C10: the name extraction inside the live-region announcement constructor
never fails at either call site: both generation entry points always return
a queue (the `none` branch modelling the panic of `unwrap` is unreachable). -/
theorem c10_generation_total :
    (∀ events node, ∃ result, node_added events node = some result) ∧
    (∀ events old_node new_node, ∃ result,
      node_updated events old_node new_node = some result) :=
  ⟨fun events node => ⟨events ++ added_app node, node_added_eq events node⟩,
   fun events old_node new_node =>
    ⟨events ++ updated_app old_node new_node,
      node_updated_eq events old_node new_node⟩⟩

end AccessKitMac
